import Mathlib

/-!
Verification of the paper-search core of the `papergobbler` repository.

The development shallowly embeds the Python sources:
  * `entities/paper.py`   — `make_paper_id`, the `Paper` dataclass and `Paper.from_dict`;
  * `src/search.py`       — `tokenize`, `build_search_text`, `SearchIndex`,
                            `build_index` and `search_papers`.

Modelling conventions:
  * Python strings are Lean `String`s; `str.strip`, `str.lower` and string
    comparison are re-implemented over `List Char` (`pyStrip`, `pyLower`,
    `charsLE`) so that every definition evaluates by kernel reduction.
    `Char.toLower` lowers ASCII letters, matching `str.lower` on the ASCII
    range relevant to tokenization.
  * Python `int` is `Int` (arbitrary precision in both languages);
    `hashlib.sha1(...).hexdigest()` is implemented bit-faithfully over `Nat`
    with explicit `% 2^32` reductions (`sha1Hex`).
  * JSON-like values are the inductive `JVal`.  Python's `json` module decodes
    booleans to `bool`, a subtype of `int` with `int(True) = 1`, so for the
    purposes of `Paper.from_dict` (whose only integer test is
    `isinstance(_, int)`) booleans are represented by `JVal.jint 1 / 0`;
    floats, nested objects and anything else that matches none of the
    `isinstance` checks in the source are represented by `JVal.jother`.
  * The TF-IDF scores produced by `sklearn`'s `linear_kernel` are floating
    point values internal to the library; `search_papers` receives them as an
    abstract assignment `scores : ℕ → ℚ` of a similarity score to each row of
    `doc_matrix`.  Facts about that assignment that the claims need (a query
    sharing no vocabulary token with the corpus gets all-zero scores) are
    stated as explicit hypotheses on `scores`.
  * `sorted` in Python is a stable sort by an ascending key; it is modelled by
    `List.insertionSort`, which is stable and sorts ascending with respect to
    the decidable total preorders used here.
-/

/-! ### Python string primitives -/

/-- The whitespace characters stripped by Python's `str.strip()` (ASCII part). -/
def isSpaceChar (c : Char) : Bool :=
  c = ' ' || c = '\t' || c = '\n' || c = '\r' || c = '\x0b' || c = '\x0c'

/-- Model of Python `str.strip()`: remove leading and trailing whitespace. -/
def pyStrip (s : String) : String :=
  ⟨((s.data.dropWhile isSpaceChar).reverse.dropWhile isSpaceChar).reverse⟩

/-- Model of Python `str.lower()` (ASCII case mapping). -/
def pyLower (s : String) : String :=
  ⟨s.data.map Char.toLower⟩

/-- Python `" ".join(xs)`. -/
def joinWords : List String → String
  | [] => ""
  | [s] => s
  | s :: rest => s ++ " " ++ joinWords rest

/-- Lexicographic `≤` on code-point sequences: how Python compares strings. -/
def charsLE (xs ys : List Char) : Bool :=
  match xs, ys with
  | [], _ => true
  | _, [] => false
  | c :: cs, d :: ds =>
    if c.toNat < d.toNat then true
    else if d.toNat < c.toNat then false
    else charsLE cs ds

/-- Python string `≤` (lexicographic by code point). -/
def strLE (s t : String) : Bool := charsLE s.data t.data

/-! ### SHA-1 over `Nat`, and UTF-8 encoding

`entities/paper.py` computes `hashlib.sha1(base.encode("utf-8")).hexdigest()`.
The hash is implemented here bit-faithfully; 32-bit words are `Nat`s reduced
`% 4294967296` (`2 ^ 32`) wherever overflow matters. -/

/-- Rotate the low 32 bits of `n` left by `k`. -/
def rotl (k n : ℕ) : ℕ := ((n <<< k) ||| (n >>> (32 - k))) % 4294967296

/-- The SHA-1 round function for round `i`. -/
def sha1F (i b c d : ℕ) : ℕ :=
  if i < 20 then (b &&& c) ||| ((b ^^^ 4294967295) &&& d)
  else if i < 40 then b ^^^ c ^^^ d
  else if i < 60 then (b &&& c) ||| (b &&& d) ||| (c &&& d)
  else b ^^^ c ^^^ d

/-- The SHA-1 round constant for round `i`. -/
def sha1K (i : ℕ) : ℕ :=
  if i < 20 then 1518500249
  else if i < 40 then 1859775393
  else if i < 60 then 2400959708
  else 3395469782

/-- Big-endian 32-bit words from a byte sequence. -/
def bytesToWords : List ℕ → List ℕ
  | b0 :: b1 :: b2 :: b3 :: rest =>
    (b0 * 16777216 + b1 * 65536 + b2 * 256 + b3) :: bytesToWords rest
  | _ => []

/-- Message-schedule extension: prepend `fuel` further words to the reversed
word list `acc` (whose head is the most recent word). -/
def extendW : ℕ → List ℕ → List ℕ
  | 0, acc => acc
  | fuel + 1, acc =>
    extendW fuel
      (rotl 1 (acc.getD 2 0 ^^^ acc.getD 7 0 ^^^ acc.getD 13 0 ^^^ acc.getD 15 0) :: acc)

/-- One SHA-1 round applied to the state `(a, b, c, d, e)`. -/
def sha1Step (st : ℕ × ℕ × ℕ × ℕ × ℕ) (iw : ℕ × ℕ) : ℕ × ℕ × ℕ × ℕ × ℕ :=
  match st, iw with
  | (a, b, c, d, e), (i, w) =>
    ((rotl 5 a + sha1F i b c d + e + sha1K i + w) % 4294967296, a, rotl 30 b, c, d)

/-- Compress one 64-byte block into the running SHA-1 state. -/
def sha1Block (st : ℕ × ℕ × ℕ × ℕ × ℕ) (block : List ℕ) : ℕ × ℕ × ℕ × ℕ × ℕ :=
  match st, (extendW 64 (bytesToWords block).reverse).reverse.enum.foldl sha1Step st with
  | (h0, h1, h2, h3, h4), (a, b, c, d, e) =>
    ((h0 + a) % 4294967296, (h1 + b) % 4294967296, (h2 + c) % 4294967296,
     (h3 + d) % 4294967296, (h4 + e) % 4294967296)

/-- Split a byte sequence into consecutive 64-byte chunks. -/
def chunks64 (l : List ℕ) : List (List ℕ) :=
  if h : l = [] then []
  else l.take 64 :: chunks64 (l.drop 64)
termination_by l.length
decreasing_by
  have hl : 0 < l.length := List.length_pos.mpr h
  simp only [List.length_drop]
  omega

/-- Big-endian rendering of `n` in `k` bytes. -/
def natToBytesBE : ℕ → ℕ → List ℕ
  | 0, _ => []
  | k + 1, n => natToBytesBE k (n / 256) ++ [n % 256]

/-- SHA-1 padding: `0x80`, zeros to 56 mod 64, then the 64-bit bit length. -/
def sha1Pad (msg : List ℕ) : List ℕ :=
  msg ++ 128 :: (List.replicate ((64 + 56 - (msg.length + 1) % 64) % 64) 0
    ++ natToBytesBE 8 (msg.length * 8))

/-- UTF-8 encoding of one character. -/
def utf8Char (c : Char) : List ℕ :=
  let n := c.toNat
  if n < 128 then [n]
  else if n < 2048 then [192 + n / 64, 128 + n % 64]
  else if n < 65536 then [224 + n / 4096, 128 + n / 64 % 64, 128 + n % 64]
  else [240 + n / 262144, 128 + n / 4096 % 64, 128 + n / 64 % 64, 128 + n % 64]

/-- UTF-8 encoding of a string (Python `str.encode("utf-8")`). -/
def utf8Bytes (s : String) : List ℕ := s.data.flatMap utf8Char

/-- The sixteen lowercase hexadecimal digits. -/
def hexChars : List Char := "0123456789abcdef".data

/-- The hexadecimal digit of `n % 16`. -/
def hexDigit (n : ℕ) : Char := hexChars.getD (n % 16) '0'

/-- Eight hex digits of a 32-bit word, most significant first. -/
def wordHex (w : ℕ) : List Char :=
  [hexDigit (w / 268435456), hexDigit (w / 16777216), hexDigit (w / 1048576),
   hexDigit (w / 65536), hexDigit (w / 4096), hexDigit (w / 256),
   hexDigit (w / 16), hexDigit w]

/-- Model of `hashlib.sha1(s.encode("utf-8")).hexdigest()`: the full 40-character
lowercase hexadecimal SHA-1 digest of the UTF-8 encoding of `s`. -/
def sha1Hex (s : String) : String :=
  match (chunks64 (sha1Pad (utf8Bytes s))).foldl sha1Block
      (1732584193, 4023233417, 2562383102, 271733878, 3285377520) with
  | (h0, h1, h2, h3, h4) =>
    ⟨wordHex h0 ++ wordHex h1 ++ wordHex h2 ++ wordHex h3 ++ wordHex h4⟩

/-! ### `entities/paper.py` -/

/-- The year component of the hashed base string: Python's `f"{year or ''}"`
renders `None` — and, `0` being falsy, also the year `0` — as the empty
string, and any other integer in decimal. -/
def yearOrEmpty : Option Int → String
  | none => ""
  | some n => if n = 0 then "" else toString n

/-- Function `make_paper_id` from `entities/paper.py`: the short stable ID, a SHA-1
hex digest of `f"{title.strip().lower()}|{year or ''}|{first_author.strip().lower()}"`. -/
def make_paper_id (title : String) (year : Option Int) (authors : List String) : String :=
  let first_author := authors.headD ""
  let base := pyLower (pyStrip title) ++ "|" ++ yearOrEmpty year ++ "|"
    ++ pyLower (pyStrip first_author)
  sha1Hex base

/-- The `Paper` frozen dataclass of `entities/paper.py`. -/
structure Paper where
  id : Int
  paper_id : String
  title : String
  authors : List String
  year : Option Int
  journal : Option String
  abstract : Option String
  keywords : List String
  doi : Option String
deriving DecidableEq, Repr

/-- JSON-like values as Python's `json` module hands them to `Paper.from_dict`.
Booleans are a subtype of `int` in Python (`int(True) = 1`), and the only
integer test in the source is `isinstance(_, int)`, so they are represented
by `jint 1 / jint 0`; floats, objects and other values that match none of the
source's `isinstance` checks are `jother`. -/
inductive JVal
  | jstr (s : String)
  | jint (n : Int)
  | jarr (elems : List JVal)
  | jnull
  | jother

/-- Python `data.get(key)` on a string-keyed dictionary. -/
def jget (d : List (String × JVal)) (key : String) : Option JVal :=
  (d.find? fun kv => kv.1 == key).map fun kv => kv.2

/-- Python `s or None` for a string `s`: the empty string is falsy. -/
def orNone (s : String) : Option String :=
  if s = "" then none else some s

/-- The author/keyword collection loop of `Paper.from_dict`: keep the string
elements, strip each, drop the ones that strip to empty, preserve order. -/
def collectStrings (xs : List JVal) : List String :=
  xs.foldl
    (fun acc v =>
      match v with
      | JVal.jstr a => if pyStrip a = "" then acc else acc ++ [pyStrip a]
      | _ => acc)
    []

/-- Method `Paper.from_dict` from `entities/paper.py`, coercion by coercion. -/
def Paper.from_dict (data : List (String × JVal)) : Paper :=
  let paper_id : Int :=
    match jget data "id" with
    | some (JVal.jint n) => n
    | _ => -1
  let title : String :=
    match jget data "title" with
    | some (JVal.jstr s) => pyStrip s
    | _ => ""
  let year : Option Int :=
    match jget data "year" with
    | some (JVal.jint n) => some n
    | _ => none
  let journal : Option String :=
    match jget data "journal" with
    | some (JVal.jstr s) => orNone (pyStrip s)
    | _ => none
  let abstract : Option String :=
    match jget data "abstract" with
    | some (JVal.jstr s) => orNone (pyStrip s)
    | _ => none
  let doi : Option String :=
    match jget data "doi" with
    | some (JVal.jstr s) => orNone (pyStrip s)
    | _ => none
  let authors : List String :=
    match jget data "authors" with
    | some (JVal.jarr xs) => collectStrings xs
    | _ => []
  let keywords : List String :=
    match jget data "keywords" with
    | some (JVal.jarr xs) => collectStrings xs
    | _ => []
  let stable_id := make_paper_id title year authors
  { id := paper_id, paper_id := stable_id, title := title, authors := authors,
    year := year, journal := journal, abstract := abstract,
    keywords := keywords, doi := doi }

/-- The rule "use the value only if it is a string; trim; drop if empty after
trimming" — the per-element treatment §4.1 prescribes for sequence fields. -/
def keepString : JVal → Option String
  | JVal.jstr a => if pyStrip a = "" then none else some (pyStrip a)
  | _ => none

/-- Specification-side normalizer, following §4.1 of the spec word for word:
id kept only if of integer type else the sentinel `-1`; title kept only if a
string, trimmed, `""` otherwise; year kept only if an integer else absent;
journal/abstract/DOI kept only if strings, trimmed, empty normalized to
absent; authors/keywords keep exactly the string elements that are non-empty
after trimming, in order, not deduplicated; the content-derived identifier is
computed last from the normalized title/year/authors. -/
def normalizeSpec (data : List (String × JVal)) : Paper :=
  let strField : Option JVal → Option String := fun v =>
    match v with
    | some (JVal.jstr s) => orNone (pyStrip s)
    | _ => none
  let seqField : Option JVal → List String := fun v =>
    match v with
    | some (JVal.jarr xs) => xs.filterMap keepString
    | _ => []
  let id : Int :=
    match jget data "id" with
    | some (JVal.jint n) => n
    | _ => -1
  let title : String :=
    match jget data "title" with
    | some (JVal.jstr s) => pyStrip s
    | _ => ""
  let year : Option Int :=
    match jget data "year" with
    | some (JVal.jint n) => some n
    | _ => none
  let authors := seqField (jget data "authors")
  { id := id, paper_id := make_paper_id title year authors, title := title,
    authors := authors, year := year, journal := strField (jget data "journal"),
    abstract := strField (jget data "abstract"),
    keywords := seqField (jget data "keywords"),
    doi := strField (jget data "doi") }

/-! ### `src/search.py` -/

/-- A character matched by the token pattern `[a-z0-9]+`. -/
def isTokChar (c : Char) : Bool :=
  ('a' ≤ c && c ≤ 'z') || ('0' ≤ c && c ≤ '9')

/-- Worker for `tokenize`: scan the character list, accumulating the current
(reversed) run of token characters in `acc`. -/
def tokensAux : List Char → List Char → List String
  | [], acc => if acc.isEmpty then [] else [⟨acc.reverse⟩]
  | c :: cs, acc =>
    if isTokChar c then tokensAux cs (c :: acc)
    else if acc.isEmpty then tokensAux cs []
    else ⟨acc.reverse⟩ :: tokensAux cs []

/-- Function `tokenize` from `src/search.py`: `re.findall(r"[a-z0-9]+", query.lower())`,
the maximal runs of lowercase-alphanumeric characters of the lowered string.
The fitted vectorizer uses the same `lowercase=True` / `token_pattern`. -/
def tokenize (query : String) : List String :=
  tokensAux (pyLower query).data []

/-- Python `x or ""` on an optional, normalized string field. -/
def orEmpty (o : Option String) : String := o.getD ""

/-- Python `str(paper.year) if paper.year is not None else ""`. -/
def yearText : Option Int → String
  | some n => toString n
  | none => ""

/-- Function `build_search_text` from `src/search.py`: join the seven searchable
fields with single spaces, then lowercase the whole string. -/
def build_search_text (paper : Paper) : String :=
  pyLower (joinWords
    [paper.title, joinWords paper.authors, yearText paper.year,
     orEmpty paper.journal, orEmpty paper.abstract, joinWords paper.keywords,
     orEmpty paper.doi])

/-- Adjacent token pairs joined by one space: sklearn's 2-grams. -/
def bigrams : List String → List String
  | t1 :: t2 :: rest => (t1 ++ " " ++ t2) :: bigrams (t2 :: rest)
  | _ => []

/-- The `ngram_range=(1, 2)` features of a token sequence. -/
def ngramsOf (ts : List String) : List String := ts ++ bigrams ts

/-- The vocabulary the vectorizer fits on `texts` (with `min_df=1`): every
1-gram and 2-gram occurring in some document.  sklearn stores the deduplicated,
sorted set; only membership and emptiness matter to this development, so the
raw occurrence list represents it. -/
def fitVocab (texts : List String) : List String :=
  texts.flatMap fun t => ngramsOf (tokenize t)

/-- The `SearchIndex` frozen dataclass of `src/search.py`.  The fitted
`TfidfVectorizer` is represented by its fitted vocabulary, and the sparse
TF-IDF matrix by the aligned flattened texts its rows are computed from
(the numeric weights themselves are floating point internal to sklearn and
enter the development as the abstract `scores` argument of `search_papers`). -/
structure SearchIndex where
  vectorizer : List String
  doc_matrix : List String
  papers : List Paper
deriving DecidableEq, Repr

/-- Function `build_index` from `src/search.py`.  `TfidfVectorizer.fit_transform`
raises `ValueError("empty vocabulary; perhaps the documents only contain stop
words")` (sklearn, `CountVectorizer._count_vocab`) when fitting yields an
empty vocabulary — in particular on an empty document list — and
`build_index` does not catch it; the fallible outcome is an `Except`. -/
def build_index (papers : List Paper) : Except String SearchIndex :=
  let texts := papers.map build_search_text
  let vocab := fitVocab texts
  if vocab.isEmpty then
    Except.error "empty vocabulary; perhaps the documents only contain stop words"
  else
    Except.ok ⟨vocab, texts, papers⟩

/-- Lexicographic `≤` on a pair whose first component is linearly ordered and
whose second is compared by `le2`: how Python compares key tuples. -/
def lexLE {α β : Type} [LinearOrder α] (le2 : β → β → Bool) (x y : α × β) : Bool :=
  if x.1 < y.1 then true
  else if y.1 < x.1 then false
  else le2 x.2 y.2

/-- Python `p.year or 0`: `None` (and the falsy year `0`) become `0`. -/
def yearOr0 (p : Paper) : Int := p.year.getD 0

/-- The empty-query sort key of `search_papers`:
`(-(p.year or 0), p.title.lower())`. -/
def emptyKey (p : Paper) : Int × String := (-(yearOr0 p), pyLower p.title)

/-- Python `≤` on empty-query key tuples. -/
def emptyKeyLE (p q : Paper) : Bool := lexLE strLE (emptyKey p) (emptyKey q)

/-- The ranked sort key of `search_papers`:
`(-scores[i], -(p.year or 0), p.title.lower())` for the enumerated pair
`(i, p)`. -/
def rankKey (scores : ℕ → ℚ) (ip : ℕ × Paper) : ℚ × Int × String :=
  (-(scores ip.1), -(yearOr0 ip.2), pyLower ip.2.title)

/-- Python `≤` on ranked key tuples. -/
def rankKeyLE (scores : ℕ → ℚ) (a b : ℕ × Paper) : Bool :=
  lexLE (lexLE strLE) (rankKey scores a) (rankKey scores b)

/-- Python `sorted(index.papers, key=lambda p: (-(p.year or 0), p.title.lower()))`. -/
def sortedAllPapers (index : SearchIndex) : List Paper :=
  List.insertionSort (fun p q => emptyKeyLE p q = true) index.papers

/-- Python `sorted(enumerate(index.papers), key=...)`: all rows ranked by
`(-score, -(year or 0), lowercase title)`. -/
def rankedRows (index : SearchIndex) (scores : ℕ → ℚ) : List (ℕ × Paper) :=
  List.insertionSort (fun a b => rankKeyLE scores a b = true) index.papers.enum

/-- The ranked rows surviving the strictly-positive-score filter. -/
def positiveRows (index : SearchIndex) (scores : ℕ → ℚ) : List (ℕ × Paper) :=
  (rankedRows index scores).filter fun ip => decide (0 < scores ip.1)

/-- Function `search_papers` from `src/search.py`.  `scores` abstracts the row vector
`linear_kernel(index.vectorizer.transform([q]), index.doc_matrix).ravel()`;
`k` is the optional result cap.  The empty-query branch returns without ever
reaching the `results[:k]` truncation, exactly as in the source. -/
def search_papers (index : SearchIndex) (scores : ℕ → ℚ) (query : String)
    (k : Option ℕ) : List Paper :=
  let q := pyStrip query
  if q = "" then
    sortedAllPapers index
  else
    let results := (positiveRows index scores).map fun ip => ip.2
    match k with
    | some kk => results.take kk
    | none => results

/-- Function `search_papers`, state-passing: the Python function receives the (mutable,
aliased) index object and returns the result list together with the index
state as it is after the call.  Every operation the body performs —
`str.strip`, `sorted` (which allocates a fresh list), `enumerate`,
`TfidfVectorizer.transform`, `linear_kernel`, a list comprehension and
slicing — reads but never writes its arguments, so each step leaves the
state untouched. -/
def search_papersSt (index : SearchIndex) (scores : ℕ → ℚ) (query : String)
    (k : Option ℕ) : List Paper × SearchIndex :=
  let q := pyStrip query
  if q = "" then
    (sortedAllPapers index, index)
  else
    let results := (positiveRows index scores).map fun ip => ip.2
    (match k with
     | some kk => results.take kk
     | none => results, index)

/-! ### Concrete sample data used by witnesses and counterexamples -/

/-- A paper with only a title and a year set (other fields defaulted). -/
def samplePaper (t : String) (y : Option Int) : Paper :=
  ⟨-1, "", t, [], y, none, none, [], none⟩

/-- The spec §8 empty-query example: years `[2020, 2018, 2020]`,
titles `["B", "A", "A"]`. -/
def samplePapers : List Paper :=
  [samplePaper "B" (some 2020), samplePaper "A" (some 2018),
   samplePaper "A" (some 2020)]

/-- An index over `samplePapers`. -/
def sampleIndex : SearchIndex :=
  ⟨fitVocab (samplePapers.map build_search_text),
   samplePapers.map build_search_text, samplePapers⟩

/-- An all-zero similarity assignment. -/
def zeroScores : ℕ → ℚ := fun _ => 0

/-- Raw record: title "Deep Learning", year 2015, first author "Smith". -/
def rawDeep1 : List (String × JVal) :=
  [("title", JVal.jstr "Deep Learning"), ("year", JVal.jint 2015),
   ("authors", JVal.jarr [JVal.jstr "Smith"])]

/-- The same paper with different casing, whitespace and extra fields. -/
def rawDeep2 : List (String × JVal) :=
  [("id", JVal.jint 7), ("title", JVal.jstr "  deep LEARNING "),
   ("year", JVal.jint 2015),
   ("authors", JVal.jarr [JVal.jstr " SMITH ", JVal.jstr "Jones"]),
   ("journal", JVal.jstr "Nature")]

/-- A concrete paper, and `samplePaper2` below differing from it only in the
numeric source id and the content-derived identifier. -/
def paperIdOnly1 : Paper :=
  ⟨1, "aaaa", "Graph Neural Networks", ["Kipf"], some 2019, none,
   some "message passing", ["gnn"], some "10.1/x"⟩

/-- Record `paperIdOnly1` with different `id` and `paper_id` fields. -/
def paperIdOnly2 : Paper :=
  ⟨2, "bbbb", "Graph Neural Networks", ["Kipf"], some 2019, none,
   some "message passing", ["gnn"], some "10.1/x"⟩

/-! ### The orderings the spec describes, as relations on records -/

/-- The ordering "year descending (absent year as 0), then lowercase title ascending":
the ordering the spec prescribes for the empty-query mode. -/
def yearTitleOrder (p q : Paper) : Prop :=
  yearOr0 q < yearOr0 p
  ∨ (yearOr0 p = yearOr0 q ∧ strLE (pyLower p.title) (pyLower q.title) = true)

/-- The ordering "score descending, then year descending (absent year as 0), then
lowercase title ascending": the ordering the spec prescribes for ranked
results, on score-annotated rows. -/
def scoreYearTitleOrder (scores : ℕ → ℚ) (a b : ℕ × Paper) : Prop :=
  scores b.1 < scores a.1
  ∨ (scores a.1 = scores b.1 ∧ yearTitleOrder a.2 b.2)

/-! ### Order lemmas for the sort keys -/

theorem charsLE_total (as : List Char) : ∀ bs, charsLE as bs = true ∨ charsLE bs as = true := by
  induction as with
  | nil => intro bs; left; simp [charsLE]
  | cons a as ih =>
    intro bs
    cases bs with
    | nil => right; simp [charsLE]
    | cons b bs =>
      rcases Nat.lt_trichotomy a.toNat b.toNat with h | h | h
      · left; simp [charsLE, h]
      · rcases ih bs with h2 | h2
        · left; simp [charsLE, h, h2]
        · right; simp [charsLE, h, h2]
      · right; simp [charsLE, h]

theorem charsLE_trans (as : List Char) :
    ∀ bs cs, charsLE as bs = true → charsLE bs cs = true → charsLE as cs = true := by
  induction as with
  | nil => intro bs cs _ _; simp [charsLE]
  | cons a as ih =>
    intro bs cs hab hbc
    cases bs with
    | nil => simp [charsLE] at hab
    | cons b bs =>
      cases cs with
      | nil => simp [charsLE] at hbc
      | cons c cs =>
        simp only [charsLE] at hab hbc ⊢
        split_ifs at hab hbc ⊢ <;>
          first
            | rfl
            | omega
            | exact ih bs cs hab hbc

theorem strLE_total (s t : String) : strLE s t = true ∨ strLE t s = true :=
  charsLE_total s.data t.data

theorem strLE_trans (s t u : String) (h1 : strLE s t = true) (h2 : strLE t u = true) :
    strLE s u = true :=
  charsLE_trans s.data t.data u.data h1 h2

theorem lexLE_iff {α β : Type} [LinearOrder α] (le2 : β → β → Bool) (x y : α × β) :
    lexLE le2 x y = true ↔ x.1 < y.1 ∨ (x.1 = y.1 ∧ le2 x.2 y.2 = true) := by
  unfold lexLE
  rcases lt_trichotomy x.1 y.1 with h | h | h
  · simp [h]
  · simp [h, lt_irrefl]
  · simp [h, lt_asymm h, h.ne']

theorem lexLE_total {α β : Type} [LinearOrder α] (le2 : β → β → Bool)
    (h2 : ∀ a b, le2 a b = true ∨ le2 b a = true) (x y : α × β) :
    lexLE le2 x y = true ∨ lexLE le2 y x = true := by
  rcases lt_trichotomy x.1 y.1 with h | h | h
  · left; rw [lexLE_iff]; exact Or.inl h
  · rcases h2 x.2 y.2 with h2' | h2'
    · left; rw [lexLE_iff]; exact Or.inr ⟨h, h2'⟩
    · right; rw [lexLE_iff]; exact Or.inr ⟨h.symm, h2'⟩
  · right; rw [lexLE_iff]; exact Or.inl h

theorem lexLE_trans {α β : Type} [LinearOrder α] {le2 : β → β → Bool}
    (h2 : ∀ a b c, le2 a b = true → le2 b c = true → le2 a c = true)
    {x y z : α × β} (hxy : lexLE le2 x y = true) (hyz : lexLE le2 y z = true) :
    lexLE le2 x z = true := by
  rw [lexLE_iff] at hxy hyz ⊢
  rcases hxy with h | ⟨he, hl⟩
  · rcases hyz with h' | ⟨he', _⟩
    · exact Or.inl (lt_trans h h')
    · exact Or.inl (he' ▸ h)
  · rcases hyz with h' | ⟨he', hl'⟩
    · exact Or.inl (he ▸ h')
    · exact Or.inr ⟨he.trans he', h2 _ _ _ hl hl'⟩

theorem emptyKeyLE_iff (p q : Paper) : emptyKeyLE p q = true ↔ yearTitleOrder p q := by
  unfold emptyKeyLE emptyKey yearTitleOrder
  rw [lexLE_iff]
  simp [strLE]

theorem emptyKeyLE_total (p q : Paper) : emptyKeyLE p q = true ∨ emptyKeyLE q p = true :=
  lexLE_total strLE strLE_total _ _

theorem emptyKeyLE_trans {p q r : Paper} (h1 : emptyKeyLE p q = true)
    (h2 : emptyKeyLE q r = true) : emptyKeyLE p r = true :=
  lexLE_trans (fun a b c ha hb => strLE_trans a b c ha hb) h1 h2

theorem innerLE_total (x y : Int × String) :
    lexLE strLE x y = true ∨ lexLE strLE y x = true :=
  lexLE_total strLE strLE_total x y

theorem innerLE_trans (x y z : Int × String) (h1 : lexLE strLE x y = true)
    (h2 : lexLE strLE y z = true) : lexLE strLE x z = true :=
  lexLE_trans (fun a b c ha hb => strLE_trans a b c ha hb) h1 h2

theorem rankKeyLE_total (scores : ℕ → ℚ) (a b : ℕ × Paper) :
    rankKeyLE scores a b = true ∨ rankKeyLE scores b a = true :=
  lexLE_total (lexLE strLE) innerLE_total _ _

theorem rankKeyLE_trans (scores : ℕ → ℚ) {a b c : ℕ × Paper}
    (h1 : rankKeyLE scores a b = true) (h2 : rankKeyLE scores b c = true) :
    rankKeyLE scores a c = true :=
  lexLE_trans innerLE_trans h1 h2

theorem rankKeyLE_iff (scores : ℕ → ℚ) (a b : ℕ × Paper) :
    rankKeyLE scores a b = true ↔ scoreYearTitleOrder scores a b := by
  unfold rankKeyLE rankKey scoreYearTitleOrder yearTitleOrder
  rw [lexLE_iff, lexLE_iff]
  simp [yearOr0, strLE]

/-! ### Helper lemmas: normalization -/

theorem collectStrings_go (xs : List JVal) (acc : List String) :
    xs.foldl
      (fun acc v =>
        match v with
        | JVal.jstr a => if pyStrip a = "" then acc else acc ++ [pyStrip a]
        | _ => acc)
      acc = acc ++ xs.filterMap keepString := by
  induction xs generalizing acc with
  | nil => simp
  | cons v xs ih =>
    cases v with
    | jstr a =>
      by_cases h : pyStrip a = "" <;> simp [h, keepString, ih]
    | jint n => simp [keepString, ih]
    | jarr es => simp [keepString, ih]
    | jnull => simp [keepString, ih]
    | jother => simp [keepString, ih]

theorem collectStrings_eq (xs : List JVal) :
    collectStrings xs = xs.filterMap keepString := by
  unfold collectStrings
  rw [collectStrings_go]
  simp

theorem from_dict_paper_id (d : List (String × JVal)) :
    (Paper.from_dict d).paper_id
      = make_paper_id (Paper.from_dict d).title (Paper.from_dict d).year
          (Paper.from_dict d).authors := rfl

theorem make_paper_id_congr (t1 t2 : String) (y1 y2 : Option Int)
    (a1 a2 : List String)
    (hT : pyLower (pyStrip t1) = pyLower (pyStrip t2)) (hY : y1 = y2)
    (hA : pyLower (pyStrip (a1.headD "")) = pyLower (pyStrip (a2.headD ""))) :
    make_paper_id t1 y1 a1 = make_paper_id t2 y2 a2 := by
  simp only [make_paper_id]
  rw [hT, hY, hA]

/-! ### Helper lemmas: the SHA-1 digest is a 40-character hex string -/

theorem hexDigit_mem (n : ℕ) : hexDigit n ∈ hexChars := by
  unfold hexDigit
  have h : n % 16 < hexChars.length := by
    have := Nat.mod_lt n (show 0 < 16 by norm_num)
    have hl : hexChars.length = 16 := by decide
    omega
  rw [List.getD_eq_getElem _ _ h]
  exact List.getElem_mem h

theorem wordHex_mem (w : ℕ) : ∀ c ∈ wordHex w, c ∈ hexChars := by
  intro c hc
  simp only [wordHex, List.mem_cons, List.not_mem_nil, or_false] at hc
  rcases hc with h | h | h | h | h | h | h | h <;> (subst h; exact hexDigit_mem _)

theorem sha1Hex_length (s : String) : (sha1Hex s).length = 40 := by
  unfold sha1Hex
  obtain ⟨h0, h1, h2, h3, h4⟩ :=
    (chunks64 (sha1Pad (utf8Bytes s))).foldl sha1Block
      (1732584193, 4023233417, 2562383102, 271733878, 3285377520)
  simp [String.length, wordHex]

theorem sha1Hex_hex (s : String) : ∀ c ∈ (sha1Hex s).data, c ∈ hexChars := by
  unfold sha1Hex
  obtain ⟨h0, h1, h2, h3, h4⟩ :=
    (chunks64 (sha1Pad (utf8Bytes s))).foldl sha1Block
      (1732584193, 4023233417, 2562383102, 271733878, 3285377520)
  intro c hc
  simp only [List.mem_append] at hc
  rcases hc with ((((h | h) | h) | h) | h) <;> exact wordHex_mem _ c h

/-! ### Helper lemmas: the two branches of `search_papers` -/

theorem search_papers_empty (index : SearchIndex) (scores : ℕ → ℚ)
    (k : Option ℕ) {query : String} (hq : pyStrip query = "") :
    search_papers index scores query k = sortedAllPapers index := by
  simp [search_papers, hq]

theorem search_papers_none (index : SearchIndex) (scores : ℕ → ℚ)
    {query : String} (hq : pyStrip query ≠ "") :
    search_papers index scores query none
      = (positiveRows index scores).map fun ip => ip.2 := by
  simp [search_papers, hq]

theorem search_papers_some (index : SearchIndex) (scores : ℕ → ℚ)
    {query : String} (hq : pyStrip query ≠ "") (kk : ℕ) :
    search_papers index scores query (some kk)
      = ((positiveRows index scores).map fun ip => ip.2).take kk := by
  simp [search_papers, hq]

theorem sortedAllPapers_perm (index : SearchIndex) :
    (sortedAllPapers index).Perm index.papers :=
  List.perm_insertionSort _ _

theorem sortedAllPapers_sorted (index : SearchIndex) :
    List.Pairwise yearTitleOrder (sortedAllPapers index) := by
  haveI : IsTotal Paper (fun p q => emptyKeyLE p q = true) := ⟨emptyKeyLE_total⟩
  haveI : IsTrans Paper (fun p q => emptyKeyLE p q = true) :=
    ⟨fun _ _ _ h1 h2 => emptyKeyLE_trans h1 h2⟩
  exact (List.sorted_insertionSort _ index.papers).imp
    fun h => (emptyKeyLE_iff _ _).mp h

theorem rankedRows_perm (index : SearchIndex) (scores : ℕ → ℚ) :
    (rankedRows index scores).Perm index.papers.enum :=
  List.perm_insertionSort _ _

theorem rankedRows_sorted (index : SearchIndex) (scores : ℕ → ℚ) :
    List.Pairwise (scoreYearTitleOrder scores) (rankedRows index scores) := by
  haveI : IsTotal (ℕ × Paper) (fun a b => rankKeyLE scores a b = true) :=
    ⟨rankKeyLE_total scores⟩
  haveI : IsTrans (ℕ × Paper) (fun a b => rankKeyLE scores a b = true) :=
    ⟨fun _ _ _ h1 h2 => rankKeyLE_trans scores h1 h2⟩
  exact (List.sorted_insertionSort _ index.papers.enum).imp
    fun h => (rankKeyLE_iff scores _ _).mp h

theorem positiveRows_sorted (index : SearchIndex) (scores : ℕ → ℚ) :
    List.Pairwise (scoreYearTitleOrder scores) (positiveRows index scores) :=
  (rankedRows_sorted index scores).filter _

theorem mem_enum_facts {α : Type} {ip : ℕ × α} {l : List α}
    (h : ip ∈ l.enum) : ip.1 < l.length ∧ ip.2 ∈ l := by
  rcases ip with ⟨i, a⟩
  rw [List.enum_eq_zip_range] at h
  have h2 := List.of_mem_zip h
  exact ⟨List.mem_range.mp h2.1, h2.2⟩

theorem mem_positive_map {index : SearchIndex} {scores : ℕ → ℚ} {p : Paper}
    (hp : p ∈ (positiveRows index scores).map fun ip => ip.2) :
    p ∈ index.papers := by
  obtain ⟨ip, hip, rfl⟩ := List.mem_map.mp hp
  have h1 : ip ∈ rankedRows index scores := List.mem_of_mem_filter hip
  have h2 : ip ∈ index.papers.enum := ((rankedRows_perm index scores).mem_iff).mp h1
  exact (mem_enum_facts h2).2

/-! ### The claims -/

/-- C2: searching with a query that is empty after trimming returns all
records of the index (a permutation of them, nothing filtered), ordered by
year descending with an absent year treated as 0, ties broken by lowercase
title ascending. -/
theorem search_empty_returns_all_sorted (index : SearchIndex) (scores : ℕ → ℚ)
    (query : String) (hq : pyStrip query = "") :
    (search_papers index scores query none).Perm index.papers
    ∧ List.Pairwise yearTitleOrder (search_papers index scores query none) := by
  rw [search_papers_empty index scores none hq]
  exact ⟨sortedAllPapers_perm index, sortedAllPapers_sorted index⟩

/-- Witness for C2, on the spec §8 example corpus (years `[2020, 2018, 2020]`,
titles `["B", "A", "A"]`) and the literally empty query. -/
theorem search_empty_witness :
    pyStrip "" = ""
    ∧ ((search_papers sampleIndex zeroScores "" none).Perm sampleIndex.papers
        ∧ List.Pairwise yearTitleOrder (search_papers sampleIndex zeroScores "" none)) :=
  ⟨by decide, search_empty_returns_all_sorted sampleIndex zeroScores "" (by decide)⟩

/-- C5 (amended): for a query that is non-empty after trimming, a positive
limit `k` truncates the ordered unbounded result to its first
`min k n` elements and never reorders.  (For empty-after-trim queries the
source returns before the truncation is reached; see the counterexample.) -/
theorem search_limit_truncates (index : SearchIndex) (scores : ℕ → ℚ)
    (query : String) (k : ℕ) (hq : pyStrip query ≠ "") (hk : 0 < k) :
    search_papers index scores query (some k)
      = (search_papers index scores query none).take k
    ∧ (search_papers index scores query (some k)).length
      = min k (search_papers index scores query none).length := by
  rw [search_papers_some index scores hq k, search_papers_none index scores hq]
  exact ⟨rfl, by simp [List.length_take]⟩

/-- Counterexample to C5 as stated: with the empty query and `k = 1`, the
source's empty-query branch returns all three sample records, not the first
`min 1 3 = 1` of the unbounded result — the limit is silently ignored. -/
theorem search_limit_cex :
    ¬(search_papers sampleIndex zeroScores "" (some 1)
        = (search_papers sampleIndex zeroScores "" none).take 1) := by decide

/-- Witness for C5 (amended), at a concrete non-empty query and `k = 1`. -/
theorem search_limit_witness :
    pyStrip "neural" ≠ "" ∧ 0 < 1
    ∧ (search_papers sampleIndex zeroScores "neural" (some 1)
        = (search_papers sampleIndex zeroScores "neural" none).take 1
      ∧ (search_papers sampleIndex zeroScores "neural" (some 1)).length
        = min 1 (search_papers sampleIndex zeroScores "neural" none).length) :=
  ⟨by decide, by decide,
   search_limit_truncates sampleIndex zeroScores "neural" 1 (by decide) (by decide)⟩

/-- C4 (amended): building an index from zero records fails with the
vectorizer's empty-vocabulary error (so no "index built from an empty
sequence" exists without error), while searching any index whose record
sequence is empty returns the empty result for every query, every score
assignment and every limit, and never fails. -/
theorem build_empty_fails_search_empty :
    build_index ([] : List Paper)
      = Except.error "empty vocabulary; perhaps the documents only contain stop words"
    ∧ ∀ (index : SearchIndex), index.papers = [] →
        ∀ (scores : ℕ → ℚ) (query : String) (k : Option ℕ),
          search_papers index scores query k = [] := by
  refine ⟨rfl, ?_⟩
  intro index hidx scores query k
  by_cases hq : pyStrip query = ""
  · rw [search_papers_empty index scores k hq]
    simp [sortedAllPapers, hidx, List.insertionSort]
  · cases k with
    | none =>
      rw [search_papers_none index scores hq]
      simp [positiveRows, rankedRows, hidx, List.insertionSort]
    | some kk =>
      rw [search_papers_some index scores hq kk]
      simp [positiveRows, rankedRows, hidx, List.insertionSort]

/-- Counterexample to C4 as stated: `build_index []` is the error value, not
a successfully built index. -/
theorem build_empty_index_error :
    build_index ([] : List Paper)
      = Except.error "empty vocabulary; perhaps the documents only contain stop words" := rfl

/-- Witness for C4 (amended), on the concrete empty index. -/
theorem build_empty_witness :
    search_papers ⟨[], [], []⟩ zeroScores "anything" (some 3) = [] :=
  build_empty_fails_search_empty.2 ⟨[], [], []⟩ rfl zeroScores "anything" (some 3)

/-- C7: the flattened text is exactly title, authors joined by a space, year
as a decimal string or empty, journal or empty, abstract or empty, keywords
joined by a space, DOI or empty — the seven fields separated by single
spaces — with the entire resulting string lowercased. -/
theorem flatten_field_order (paper : Paper) :
    build_search_text paper
      = pyLower (paper.title ++ " " ++ joinWords paper.authors ++ " "
          ++ yearText paper.year ++ " " ++ orEmpty paper.journal ++ " "
          ++ orEmpty paper.abstract ++ " " ++ joinWords paper.keywords ++ " "
          ++ orEmpty paper.doi) := by
  unfold build_search_text
  congr 1
  simp [joinWords, String.append_assoc]

/-- C9: the flattened text depends only on the seven searchable fields —
two records agreeing on them flatten identically however their numeric id
and content-derived identifier differ. -/
theorem flatten_ignores_ids (p q : Paper)
    (hT : p.title = q.title) (hA : p.authors = q.authors) (hY : p.year = q.year)
    (hJ : p.journal = q.journal) (hAb : p.abstract = q.abstract)
    (hK : p.keywords = q.keywords) (hD : p.doi = q.doi) :
    build_search_text p = build_search_text q := by
  unfold build_search_text
  rw [hT, hA, hY, hJ, hAb, hK, hD]

/-- Witness for C9: two concrete records differing exactly in `id` and
`paper_id` flatten to the same string. -/
theorem flatten_ignores_ids_witness :
    paperIdOnly1.id ≠ paperIdOnly2.id
    ∧ paperIdOnly1.paper_id ≠ paperIdOnly2.paper_id
    ∧ build_search_text paperIdOnly1 = build_search_text paperIdOnly2 :=
  ⟨by decide, by decide,
   flatten_ignores_ids paperIdOnly1 paperIdOnly2 rfl rfl rfl rfl rfl rfl rfl⟩

/-- C10: `make_paper_id` conflates year 0 with an absent year: Python's
`f"{year or ''}"` renders both as the empty string, so the hashed base
strings coincide for every title and author list. -/
theorem paper_id_year_zero_conflated (title : String) (authors : List String) :
    make_paper_id title (some 0) authors = make_paper_id title none authors
    ∧ yearOrEmpty (some 0) = "" ∧ yearOrEmpty none = "" :=
  ⟨rfl, rfl, rfl⟩

/-- C8: searching is frame-preserving: the state-passing model of
`search_papers` returns the index unchanged, computes exactly the value of
the pure `search_papers`, and every returned record is (an unmodified)
element of the index's record sequence. -/
theorem search_frame (index : SearchIndex) (scores : ℕ → ℚ) (query : String)
    (k : Option ℕ) :
    (search_papersSt index scores query k).2 = index
    ∧ (search_papersSt index scores query k).1 = search_papers index scores query k
    ∧ ∀ p ∈ (search_papersSt index scores query k).1, p ∈ index.papers := by
  have h2 : (search_papersSt index scores query k).1
      = search_papers index scores query k := by
    unfold search_papersSt search_papers
    by_cases hq : pyStrip query = ""
    · simp [hq]
    · cases k <;> simp [hq]
  have h1 : (search_papersSt index scores query k).2 = index := by
    unfold search_papersSt
    by_cases hq : pyStrip query = ""
    · simp [hq]
    · cases k <;> simp [hq]
  refine ⟨h1, h2, ?_⟩
  rw [h2]
  intro p hp
  by_cases hq : pyStrip query = ""
  · rw [search_papers_empty index scores k hq] at hp
    exact ((sortedAllPapers_perm index).mem_iff).mp hp
  · cases k with
    | none =>
      rw [search_papers_none index scores hq] at hp
      exact mem_positive_map hp
    | some kk =>
      rw [search_papers_some index scores hq kk] at hp
      exact mem_positive_map ((List.take_sublist _ _).mem hp)

/-- C1: for a query that is non-empty after trimming, the result is exactly
the records whose similarity score is strictly positive (a permutation of
that filtered row list, projected to records), the surviving rows are
ordered by score descending, then year descending (absent year as 0), then
lowercase title ascending, and — given that an all-out-of-vocabulary query
receives all-zero scores from the vectorizer — a query none of whose tokens
occurs in any flattened text yields the empty result. -/
theorem search_ranked_characterization (index : SearchIndex) (scores : ℕ → ℚ)
    (query : String) (hq : pyStrip query ≠ "")
    (hzero : (∀ t ∈ tokenize query, ∀ p ∈ index.papers,
        t ∉ tokenize (build_search_text p)) →
      ∀ i < index.papers.length, scores i = 0) :
    search_papers index scores query none
      = ((positiveRows index scores).map fun ip => ip.2)
    ∧ (search_papers index scores query none).Perm
        ((index.papers.enum.filter fun ip => decide (0 < scores ip.1)).map
          fun ip => ip.2)
    ∧ List.Pairwise (scoreYearTitleOrder scores) (positiveRows index scores)
    ∧ ((∀ t ∈ tokenize query, ∀ p ∈ index.papers,
        t ∉ tokenize (build_search_text p)) →
        search_papers index scores query none = []) := by
  have h0 := search_papers_none index scores hq
  refine ⟨h0, ?_, positiveRows_sorted index scores, ?_⟩
  · rw [h0]
    exact ((rankedRows_perm index scores).filter _).map _
  · intro hc
    rw [h0]
    have hnil : positiveRows index scores = [] := by
      apply List.filter_eq_nil_iff.mpr
      intro ip hip
      have hmem : ip ∈ index.papers.enum :=
        ((rankedRows_perm index scores).mem_iff).mp hip
      have hlt := (mem_enum_facts hmem).1
      simp [hzero hc ip.1 hlt]
    rw [hnil]
    rfl

/-- Witness for C1, at the sample corpus, the query `"neural"` (none of whose
tokens occurs in the corpus) and the all-zero score assignment — for which
the score-model hypothesis holds definitionally. -/
theorem search_ranked_witness :
    pyStrip "neural" ≠ ""
    ∧ (search_papers sampleIndex zeroScores "neural" none
        = ((positiveRows sampleIndex zeroScores).map fun ip => ip.2)
    ∧ (search_papers sampleIndex zeroScores "neural" none).Perm
        ((sampleIndex.papers.enum.filter fun ip => decide (0 < zeroScores ip.1)).map
          fun ip => ip.2)
    ∧ List.Pairwise (scoreYearTitleOrder zeroScores)
        (positiveRows sampleIndex zeroScores)
    ∧ ((∀ t ∈ tokenize "neural", ∀ p ∈ sampleIndex.papers,
        t ∉ tokenize (build_search_text p)) →
        search_papers sampleIndex zeroScores "neural" none = [])) :=
  ⟨by decide,
   search_ranked_characterization sampleIndex zeroScores "neural" (by decide)
     (fun _ _ _ => rfl)⟩

/-- C3: the content-derived identifier depends only on the lowercased-trimmed
title, the year, and the lowercased-trimmed first author — agreeing raw
records get the same identifier whatever their casing, whitespace or other
fields — and it is the full 40-character (hence at least 12-character)
lowercase-hexadecimal SHA-1 digest of that triple's base string. -/
theorem paper_id_content_derived (d1 d2 : List (String × JVal))
    (hT : pyLower (pyStrip (Paper.from_dict d1).title)
        = pyLower (pyStrip (Paper.from_dict d2).title))
    (hY : (Paper.from_dict d1).year = (Paper.from_dict d2).year)
    (hA : pyLower (pyStrip ((Paper.from_dict d1).authors.headD ""))
        = pyLower (pyStrip ((Paper.from_dict d2).authors.headD ""))) :
    (Paper.from_dict d1).paper_id = (Paper.from_dict d2).paper_id
    ∧ (Paper.from_dict d1).paper_id.length = 40
    ∧ 12 ≤ (Paper.from_dict d1).paper_id.length
    ∧ ∀ c ∈ (Paper.from_dict d1).paper_id.data, c ∈ hexChars := by
  have hlen : (Paper.from_dict d1).paper_id.length = 40 := by
    rw [from_dict_paper_id d1]
    simp only [make_paper_id]
    exact sha1Hex_length _
  refine ⟨?_, hlen, hlen ▸ (by norm_num : (12 : ℕ) ≤ 40), ?_⟩
  · rw [from_dict_paper_id d1, from_dict_paper_id d2]
    exact make_paper_id_congr _ _ _ _ _ _ hT hY hA
  · rw [from_dict_paper_id d1]
    simp only [make_paper_id]
    exact sha1Hex_hex _

/-- Witness for C3: "Deep Learning" / 2015 / "Smith" against a re-cased,
re-whitespaced raw record with extra fields. -/
theorem paper_id_content_witness :
    pyLower (pyStrip (Paper.from_dict rawDeep1).title)
      = pyLower (pyStrip (Paper.from_dict rawDeep2).title)
    ∧ (Paper.from_dict rawDeep1).year = (Paper.from_dict rawDeep2).year
    ∧ pyLower (pyStrip ((Paper.from_dict rawDeep1).authors.headD ""))
      = pyLower (pyStrip ((Paper.from_dict rawDeep2).authors.headD ""))
    ∧ ((Paper.from_dict rawDeep1).paper_id = (Paper.from_dict rawDeep2).paper_id
      ∧ (Paper.from_dict rawDeep1).paper_id.length = 40
      ∧ 12 ≤ (Paper.from_dict rawDeep1).paper_id.length
      ∧ ∀ c ∈ (Paper.from_dict rawDeep1).paper_id.data, c ∈ hexChars) :=
  ⟨by decide, by decide, by decide,
   paper_id_content_derived rawDeep1 rawDeep2 (by decide) (by decide) (by decide)⟩

/-- C6: normalization is total and coerces exactly as the spec describes —
`Paper.from_dict` coincides with the specification-side normalizer on every
raw key-value map. -/
theorem normalize_never_fails (d : List (String × JVal)) :
    Paper.from_dict d = normalizeSpec d := by
  unfold Paper.from_dict normalizeSpec
  simp only [collectStrings_eq]
